import Mathlib

/-!
Shallow embedding of the boulder-be real-time game session engine.

Sources embedded:
- src/sockets/gameHandlers.ts — the socket handlers `game:create`, `game:accept`,
  `game:decline`, `game:answer`, `game:leave`, and the internal functions
  `sendNextQuestion`, `handleQuestionTimeout`, `checkGameProgress`, `finishGame`.
- src/services/openrouter.ts — `isGeneratedQuestion` / `validateAndNormalizeQuestions`
  (the pure validation part of `generateQuizQuestions`; the HTTP fetching is
  abstracted as the raw batch argument).
- the GameSession mongoose model (question schema, answer schema, session fields).

Modelling conventions: a single session is modelled (sessions are independent);
the per-game timer map entry is `World.timer`; socket broadcasts become a list of
`GameEvent` values returned next to the new state; JavaScript numbers are `Nat`
(ids, indexes, scores) or `Int` (timestamps, durations); `Date.now()` values are
passed as explicit `now` arguments.  Mongoose document mutation plus `save()` is
modelled as returning the updated record; exceptions thrown before a `save()`
leave the state unchanged (the handler try/catch swallows them).
-/

/-- A question stored on a game session (gameQuestionSchema in the model,
`GeneratedQuestion` in openrouter.ts). -/
structure Question where
  question : String
  options : List String
  correct_answer : String
  score : Nat
deriving Repr, DecidableEq

/-- One recorded player answer (answerSchema in the GameSession model). -/
structure AnswerRecord where
  questionIndex : Nat
  answer : String
  isCorrect : Bool
  timeMs : Int
  score : Nat
deriving Repr, DecidableEq

/-- The `status` enum of a game session. -/
inductive GameStatus where
  | waiting
  | in_progress
  | completed
  | cancelled
deriving Repr, DecidableEq

/-- The GameSession document fields used by the engine (timestamps that no claim
mentions — createdAt, startedAt, completedAt — are omitted). -/
structure GameSession where
  hostId : Nat
  guestId : Nat
  topic : String
  difficulty : String
  rounds : Nat
  questionsPerRound : Nat
  status : GameStatus
  questions : List Question
  hostAnswers : List AnswerRecord
  guestAnswers : List AnswerRecord
  currentQuestionIndex : Nat
  currentRound : Nat
  hostScore : Nat
  guestScore : Nat
  winnerId : Option Nat
  questionStartTime : Option Int
  expiresAt : Int
deriving Repr, DecidableEq

/-- The view one session has of the server state: the persisted session plus the
`gameTimers` entry for this game (`some i` = an armed timeout for question `i`). -/
structure World where
  game : GameSession
  timer : Option Nat
deriving Repr, DecidableEq

/-- Socket events emitted by the handlers (payload reduced to the fields the
claims of the spec talk about). -/
inductive GameEvent where
  | errorMsg (toUser : Nat) (message : String)
  | started
  | declined (toUser : Nat)
  | cancelledNotice (toUser : Nat)
  | questionSent (questionIndex round questionInRound : Nat)
  | opponentAnswered (toUser : Nat) (questionIndex : Nat)
  | answerResult (questionIndex : Nat) (correctAnswer : String) (hostScore guestScore : Nat)
  | roundResult (round : Nat) (hostScore guestScore : Nat)
  | timeoutNotice (questionIndex : Nat) (correctAnswer : String)
  | finished (winnerId : Option Nat) (hostScore guestScore : Nat)
      (forfeit : Bool) (forfeitedBy : Option Nat)
deriving Repr, DecidableEq

/-- `const QUESTION_TIME_MS = 20000`. -/
def QUESTION_TIME_MS : Int := 20000

/-- `const SPEED_BONUS_THRESHOLD_MS = 5000`. -/
def SPEED_BONUS_THRESHOLD_MS : Int := 5000

/-- `answers.some(a => a.questionIndex === questionIndex)`. -/
def hasAnswerFor (l : List AnswerRecord) (i : Nat) : Bool :=
  l.any fun a => a.questionIndex == i

/-- The `playerAnswers` selection in the `game:answer` handler:
`isHost ? game.hostAnswers : game.guestAnswers` with `isHost = hostId === userId`. -/
def playerAnswersOf (g : GameSession) (u : Nat) : List AnswerRecord :=
  if g.hostId == u then g.hostAnswers else g.guestAnswers

/-- `finishGame` (gameHandlers.ts): set status completed, pick the winner by
strict score comparison (null on a tie), emit `game:finished`, clear the timer. -/
def finishGame (w : World) : World × List GameEvent :=
  let g := w.game
  let winner : Option Nat :=
    if g.hostScore > g.guestScore then some g.hostId
    else if g.guestScore > g.hostScore then some g.guestId
    else none
  let g2 := { g with status := GameStatus.completed, winnerId := winner }
  ({ game := g2, timer := none },
   [GameEvent.finished winner g2.hostScore g2.guestScore false none])

/-- `checkGameProgress` (gameHandlers.ts): reveal the answers for the current
question, then finish if it was the last question, else bump the round at a
round boundary and advance `currentQuestionIndex` by one.  When
`questions[currentQuestionIndex]` is missing the source throws reading
`.correct_answer` before any mutation or save, so the state is unchanged. -/
def checkGameProgress (w : World) : World × List GameEvent :=
  let g := w.game
  let questionIndex := g.currentQuestionIndex
  let totalQuestions := g.questions.length
  match g.questions[questionIndex]? with
  | none => (w, [])
  | some currentQuestion =>
    let revealEv := GameEvent.answerResult questionIndex currentQuestion.correct_answer
      g.hostScore g.guestScore
    if (questionIndex : Int) ≥ (totalQuestions : Int) - 1 then
      let r := finishGame w
      (r.1, revealEv :: r.2)
    else if (questionIndex + 1) % 5 = 0 then
      let round := questionIndex / 5 + 1
      ({ w with game := { g with currentRound := round + 1,
                                 currentQuestionIndex := questionIndex + 1 } },
       [revealEv, GameEvent.roundResult round g.hostScore g.guestScore])
    else
      ({ w with game := { g with currentQuestionIndex := questionIndex + 1 } },
       [revealEv])

/-- `sendNextQuestion` (gameHandlers.ts): no-op unless in progress; finish if the
cursor has run off the questions; otherwise stamp `questionStartTime`, broadcast
the question and arm the per-question timeout timer. -/
def sendNextQuestion (w : World) (now : Int) : World × List GameEvent :=
  let g := w.game
  if g.status ≠ GameStatus.in_progress then (w, [])
  else
    let questionIndex := g.currentQuestionIndex
    match g.questions[questionIndex]? with
    | none => finishGame w
    | some _ =>
      let g2 := { g with questionStartTime := some now }
      ({ game := g2, timer := some questionIndex },
       [GameEvent.questionSent questionIndex (questionIndex / 5 + 1) (questionIndex % 5 + 1)])

/-- `handleQuestionTimeout` (gameHandlers.ts): re-check that the game is still
in progress and still on the fired question index; synthesize zero-score blank
answers for players with no answer at that index; broadcast the timeout and run
`checkGameProgress`.  When the question is missing the source saves the pushed
answers and then throws on `.correct_answer`, so `checkGameProgress` is not
reached. -/
def handleQuestionTimeout (w : World) (questionIndex : Nat) : World × List GameEvent :=
  let g := w.game
  if g.status ≠ GameStatus.in_progress then (w, [])
  else if g.currentQuestionIndex ≠ questionIndex then (w, [])
  else
    let hostAnswered := hasAnswerFor g.hostAnswers questionIndex
    let guestAnswered := hasAnswerFor g.guestAnswers questionIndex
    let timeoutEntry : AnswerRecord :=
      { questionIndex := questionIndex, answer := "", isCorrect := false,
        timeMs := QUESTION_TIME_MS, score := 0 }
    let g2 := if hostAnswered then g
      else { g with hostAnswers := g.hostAnswers ++ [timeoutEntry] }
    let g3 := if guestAnswered then g2
      else { g2 with guestAnswers := g2.guestAnswers ++ [timeoutEntry] }
    let w2 : World := { w with game := g3 }
    match g3.questions[questionIndex]? with
    | none => (w2, [])
    | some currentQuestion =>
      let r := checkGameProgress w2
      (r.1, GameEvent.timeoutNotice questionIndex currentQuestion.correct_answer :: r.2)

/-- The elapsed-time / correctness / score computation of the `game:answer`
handler (gameHandlers.ts lines 282-307): elapsed = now − `questionStartTime`
(full window when unset), correctness by exact string match, score 0 when
wrong, else the points of the question plus a +1 speed bonus strictly under the
5000 ms threshold. -/
def answerEntryFor (g : GameSession) (answer : String) (now : Int)
    (currentQuestion : Question) : AnswerRecord :=
  let timeMs : Int :=
    match g.questionStartTime with
    | some t => now - t
    | none => QUESTION_TIME_MS
  let isCorrect := answer == currentQuestion.correct_answer
  let score : Nat :=
    if isCorrect then
      currentQuestion.score + (if timeMs < SPEED_BONUS_THRESHOLD_MS then 1 else 0)
    else 0
  { questionIndex := g.currentQuestionIndex, answer := answer, isCorrect := isCorrect,
    timeMs := timeMs, score := score }

/-- The `game:answer` handler: reject when not in progress, not a participant, or
already answered; compute the answer record (`answerEntryFor`), append it, bump
the running score, notify the opponent; when both players now have an answer,
clear the timer and run `checkGameProgress`. -/
def answerHandler (w : World) (userId : Nat) (answer : String) (now : Int) :
    World × List GameEvent :=
  let g := w.game
  if g.status ≠ GameStatus.in_progress then
    (w, [GameEvent.errorMsg userId "Game is not in progress"])
  else
    let isHost := g.hostId == userId
    let isGuest := g.guestId == userId
    if !isHost && !isGuest then
      (w, [GameEvent.errorMsg userId "You are not part of this game"])
    else
      let questionIndex := g.currentQuestionIndex
      let playerAnswers := if isHost then g.hostAnswers else g.guestAnswers
      if hasAnswerFor playerAnswers questionIndex then
        (w, [GameEvent.errorMsg userId "Already answered this question"])
      else
        match g.questions[questionIndex]? with
        | none => (w, [GameEvent.errorMsg userId "Failed to submit answer"])
        | some currentQuestion =>
          let answerRecord := answerEntryFor g answer now currentQuestion
          let g2 :=
            if isHost then
              { g with hostAnswers := g.hostAnswers ++ [answerRecord],
                       hostScore := g.hostScore + answerRecord.score }
            else
              { g with guestAnswers := g.guestAnswers ++ [answerRecord],
                       guestScore := g.guestScore + answerRecord.score }
          let opponentId := if isHost then g.guestId else g.hostId
          let opponentEv := GameEvent.opponentAnswered opponentId questionIndex
          let hostAnswered := hasAnswerFor g2.hostAnswers questionIndex
          let guestAnswered := hasAnswerFor g2.guestAnswers questionIndex
          if hostAnswered && guestAnswered then
            let w2 : World := { game := g2, timer := none }
            let r := checkGameProgress w2
            (r.1, opponentEv :: r.2)
          else
            ({ w with game := g2 }, [opponentEv])

/-- The `game:accept` handler: only the designated guest, only while waiting;
set in_progress, reset the cursor, broadcast `game:started`.  The `expiresAt`
field of the session is never read. -/
def acceptHandler (w : World) (userId : Nat) : World × List GameEvent :=
  let g := w.game
  if g.guestId ≠ userId then
    (w, [GameEvent.errorMsg userId "You are not invited to this game"])
  else if g.status ≠ GameStatus.waiting then
    (w, [GameEvent.errorMsg userId "Game is no longer available"])
  else
    ({ w with game := { g with status := GameStatus.in_progress,
                               currentQuestionIndex := 0, currentRound := 1 } },
     [GameEvent.started])

/-- `game:accept` including the `findById` miss: a missing session only yields
the "Game not found" error. -/
def acceptFromStore : Option World → Nat → Option World × List GameEvent
  | none, userId => (none, [GameEvent.errorMsg userId "Game not found"])
  | some w, userId =>
    let r := acceptHandler w userId
    (some r.1, r.2)

/-- The `game:decline` handler: only the designated guest; the source performs
no status check before setting the status to cancelled and notifying the host. -/
def declineHandler (w : World) (userId : Nat) : World × List GameEvent :=
  let g := w.game
  if g.guestId ≠ userId then
    (w, [GameEvent.errorMsg userId "You are not invited to this game"])
  else
    ({ w with game := { g with status := GameStatus.cancelled } },
     [GameEvent.declined g.hostId])

/-- The `game:leave` handler: participants only; cancel a waiting game; forfeit
an in-progress game (other player wins, timer cleared, forfeit-flagged
`game:finished` broadcast); terminal statuses fall through unchanged. -/
def leaveHandler (w : World) (userId : Nat) : World × List GameEvent :=
  let g := w.game
  let isHost := g.hostId == userId
  let isGuest := g.guestId == userId
  if !isHost && !isGuest then
    (w, [GameEvent.errorMsg userId "You are not part of this game"])
  else if g.status = GameStatus.waiting then
    let otherId := if isHost then g.guestId else g.hostId
    ({ w with game := { g with status := GameStatus.cancelled } },
     [GameEvent.cancelledNotice otherId])
  else if g.status = GameStatus.in_progress then
    let winner := if isHost then g.guestId else g.hostId
    let g2 := { g with status := GameStatus.completed, winnerId := some winner }
    ({ game := g2, timer := none },
     [GameEvent.finished (some winner) g.hostScore g.guestScore true (some userId)])
  else
    (w, [])

/-- A raw question as parsed from the generator JSON before validation
(openrouter.ts; the dynamic type checks of `isGeneratedQuestion` are carried by
this typed shape, the structural checks are below). -/
structure RawQuestion where
  question : String
  options : List String
  correct_answer : String
  score : Int
deriving Repr, DecidableEq

/-- `isGeneratedQuestion` (openrouter.ts): exactly 3 options and a score in
[1,5]. -/
def isGeneratedQuestion (o : RawQuestion) : Bool :=
  o.options.length == 3 && (1 ≤ o.score && o.score ≤ 5)

def toGeneratedQuestion (o : RawQuestion) : Question :=
  { question := o.question, options := o.options,
    correct_answer := o.correct_answer, score := o.score.toNat }

/-- `validateAndNormalizeQuestions` (openrouter.ts): the batch must hold exactly
5 questions, every one passing `isGeneratedQuestion`; otherwise the generator
call throws. -/
def validateAndNormalizeQuestions (raw : List RawQuestion) :
    Except String (List Question) :=
  if raw.length ≠ 5 then
    Except.error "Invalid response from question generator: expected exactly 5 questions"
  else if raw.all isGeneratedQuestion then
    Except.ok (raw.map toGeneratedQuestion)
  else
    Except.error "Invalid response from question generator: invalid question"

/-- The `game:create` handler.  The friendship lookup and the
third-party-active-session lookup are database queries over other collections /
other sessions, abstracted as the booleans `friendAccepted` and
`activeWithOther` (the stale-game cleanup between the same pair touches other
session records only).  `generateQuizQuestions` with an empty exclusion list
reduces to `validateAndNormalizeQuestions` on the fetched raw batch.  On
success the handler keeps `questions.slice(0, rounds * 5)` of the batch and
persists a waiting session expiring five minutes after creation. -/
def createGame (hostId guestId : Nat) (topic difficulty : String) (rounds : Int)
    (friendAccepted : Bool) (activeWithOther : Bool)
    (rawBatch : List RawQuestion) (now : Int) : Except String World :=
  if rounds < 1 || rounds > 3 then
    Except.error "Rounds must be between 1 and 3"
  else if !friendAccepted then
    Except.error "You can only invite friends to play"
  else if activeWithOther then
    Except.error "You or your friend is already in an active game with someone else"
  else
    match validateAndNormalizeQuestions rawBatch with
    | Except.error e => Except.error e
    | Except.ok questions =>
      let totalQuestions := rounds.toNat * 5
      let gameQuestions := questions.take totalQuestions
      Except.ok
        { game :=
            { hostId := hostId, guestId := guestId, topic := topic,
              difficulty := difficulty, rounds := rounds.toNat, questionsPerRound := 5,
              status := GameStatus.waiting, questions := gameQuestions,
              hostAnswers := [], guestAnswers := [], currentQuestionIndex := 0,
              currentRound := 1, hostScore := 0, guestScore := 0, winnerId := none,
              questionStartTime := none, expiresAt := now + 5 * 60 * 1000 },
          timer := none }

/-- The discrete inputs that can hit one session after creation: the four
client messages plus the two engine-scheduled callbacks (`sendNextQuestion`
after a delay, and a timeout firing — possibly stale, so with an arbitrary
index). -/
inductive Op where
  | accept (userId : Nat)
  | decline (userId : Nat)
  | answer (userId : Nat) (text : String) (now : Int)
  | leave (userId : Nat)
  | timeoutFire (questionIndex : Nat)
  | sendQuestion (now : Int)
deriving Repr, DecidableEq

def applyOp (w : World) : Op → World × List GameEvent
  | Op.accept u => acceptHandler w u
  | Op.decline u => declineHandler w u
  | Op.answer u s now => answerHandler w u s now
  | Op.leave u => leaveHandler w u
  | Op.timeoutFire i => handleQuestionTimeout w i
  | Op.sendQuestion now => sendNextQuestion w now

def stepOp (w : World) (op : Op) : World := (applyOp w op).1

/-- States a session can actually be in: freshly created, or any engine
operation applied to a reachable state. -/
inductive Reachable : World → Prop where
  | created (hostId guestId : Nat) (topic difficulty : String) (rounds : Int)
      (friendAccepted activeWithOther : Bool) (rawBatch : List RawQuestion)
      (now : Int) (w : World)
      (h : createGame hostId guestId topic difficulty rounds friendAccepted
            activeWithOther rawBatch now = Except.ok w) :
      Reachable w
  | step (w : World) (op : Op) (h : Reachable w) : Reachable (stepOp w op)

/-- Number of recorded answers for question index `i`. -/
def countAt (l : List AnswerRecord) (i : Nat) : Nat :=
  (l.filter fun a => a.questionIndex == i).length

/-- Sum of the per-answer scores. -/
def sumScores (l : List AnswerRecord) : Nat :=
  (l.map AnswerRecord.score).sum

/-- The state invariants the engine maintains on every reachable session:
at most one recorded answer per question index per player, running scores equal
to the sums of recorded per-answer scores, a cursor bounded by the question
count (strictly while in progress), a fresh cursor and no answers while
waiting, recorded answers never beyond the cursor, and never both players
holding an answer for the not-yet-resolved current question. -/
structure EngineInv (w : World) : Prop where
  countHost : ∀ i, countAt w.game.hostAnswers i ≤ 1
  countGuest : ∀ i, countAt w.game.guestAnswers i ≤ 1
  idxLe : w.game.currentQuestionIndex ≤ w.game.questions.length
  sumHost : w.game.hostScore = sumScores w.game.hostAnswers
  sumGuest : w.game.guestScore = sumScores w.game.guestAnswers
  lenPos : 0 < w.game.questions.length
  waitingIdx : w.game.status = GameStatus.waiting → w.game.currentQuestionIndex = 0
  waitingHost : w.game.status = GameStatus.waiting → w.game.hostAnswers = []
  waitingGuest : w.game.status = GameStatus.waiting → w.game.guestAnswers = []
  idxLt : w.game.status = GameStatus.in_progress →
    w.game.currentQuestionIndex < w.game.questions.length
  leHost : w.game.status = GameStatus.in_progress →
    ∀ a ∈ w.game.hostAnswers, a.questionIndex ≤ w.game.currentQuestionIndex
  leGuest : w.game.status = GameStatus.in_progress →
    ∀ a ∈ w.game.guestAnswers, a.questionIndex ≤ w.game.currentQuestionIndex
  notBoth : w.game.status = GameStatus.in_progress →
    hasAnswerFor w.game.hostAnswers w.game.currentQuestionIndex = false ∨
    hasAnswerFor w.game.guestAnswers w.game.currentQuestionIndex = false

/-! ### Concrete demonstration data -/

/-- A well-formed raw generator question: 3 options, score 3, correct answer "A". -/
def demoRaw (s : String) : RawQuestion :=
  { question := s, options := ["A", "B", "C"], correct_answer := "A", score := 3 }

/-- A valid generator batch of exactly 5 questions. -/
def batch5 : List RawQuestion :=
  [demoRaw "Q1", demoRaw "Q2", demoRaw "Q3", demoRaw "Q4", demoRaw "Q5"]

/-- The session persisted by a successful 1-round create (host 1, guest 2). -/
def demoW0 : World :=
  { game :=
      { hostId := 1, guestId := 2, topic := "Animals", difficulty := "easy",
        rounds := 1, questionsPerRound := 5, status := GameStatus.waiting,
        questions := batch5.map toGeneratedQuestion,
        hostAnswers := [], guestAnswers := [], currentQuestionIndex := 0,
        currentRound := 1, hostScore := 0, guestScore := 0, winnerId := none,
        questionStartTime := none, expiresAt := 300000 },
    timer := none }

/-- demoW0 after the guest accepts: in progress on question 0. -/
def demoW1 : World := stepOp demoW0 (Op.accept 2)

/-- demoW1 once question 0 is broadcast at time 1000. -/
def demoW2 : World := stepOp demoW1 (Op.sendQuestion 1000)

/-- demoW2 after the host answers "A" (correct) at time 3000. -/
def demoW3 : World := stepOp demoW2 (Op.answer 1 "A" 3000)

/-- demoW3 after the guest answers "B" (wrong) at time 4000: both answered,
progress advances to question 1. -/
def demoW4 : World := stepOp demoW3 (Op.answer 2 "B" 4000)

/-- demoW4 after the guest leaves mid-game: completed by forfeit. -/
def demoW5 : World := stepOp demoW4 (Op.leave 2)

/-- A session sitting on its last question with host ahead 12 to 9. -/
def demoLast : World :=
  { game := { demoW4.game with currentQuestionIndex := 4, hostScore := 12, guestScore := 9 },
    timer := none }

lemma demoW0_created :
    createGame 1 2 "Animals" "easy" 1 true false batch5 0 = Except.ok demoW0 := by
  rfl

lemma demoW4_reachable : Reachable demoW4 :=
  Reachable.step demoW3 (Op.answer 2 "B" 4000)
    (Reachable.step demoW2 (Op.answer 1 "A" 3000)
      (Reachable.step demoW1 (Op.sendQuestion 1000)
        (Reachable.step demoW0 (Op.accept 2)
          (Reachable.created 1 2 "Animals" "easy" 1 true false batch5 0 demoW0
            demoW0_created))))

/-! ### Frame lemmas about the internal progress functions -/

@[simp] lemma finishGame_hostAnswers (w : World) :
    (finishGame w).1.game.hostAnswers = w.game.hostAnswers := by
  simp [finishGame]

@[simp] lemma finishGame_guestAnswers (w : World) :
    (finishGame w).1.game.guestAnswers = w.game.guestAnswers := by
  simp [finishGame]

@[simp] lemma finishGame_hostScore (w : World) :
    (finishGame w).1.game.hostScore = w.game.hostScore := by
  simp [finishGame]

@[simp] lemma finishGame_guestScore (w : World) :
    (finishGame w).1.game.guestScore = w.game.guestScore := by
  simp [finishGame]

@[simp] lemma finishGame_questions (w : World) :
    (finishGame w).1.game.questions = w.game.questions := by
  simp [finishGame]

@[simp] lemma finishGame_hostId (w : World) :
    (finishGame w).1.game.hostId = w.game.hostId := by
  simp [finishGame]

@[simp] lemma finishGame_guestId (w : World) :
    (finishGame w).1.game.guestId = w.game.guestId := by
  simp [finishGame]

@[simp] lemma finishGame_idx (w : World) :
    (finishGame w).1.game.currentQuestionIndex = w.game.currentQuestionIndex := by
  simp [finishGame]

@[simp] lemma finishGame_status (w : World) :
    (finishGame w).1.game.status = GameStatus.completed := by
  simp [finishGame]

@[simp] lemma finishGame_timer (w : World) : (finishGame w).1.timer = none := by
  simp [finishGame]

@[simp] lemma checkGameProgress_hostAnswers (w : World) :
    (checkGameProgress w).1.game.hostAnswers = w.game.hostAnswers := by
  rcases hq : w.game.questions[w.game.currentQuestionIndex]? with _ | q
  · simp [checkGameProgress, hq]
  · by_cases hge : (w.game.currentQuestionIndex : Int) ≥ (w.game.questions.length : Int) - 1
    · simp [checkGameProgress, hq, hge]
    · by_cases hr : (w.game.currentQuestionIndex + 1) % 5 = 0 <;>
        simp [checkGameProgress, hq, hge, hr]

@[simp] lemma checkGameProgress_guestAnswers (w : World) :
    (checkGameProgress w).1.game.guestAnswers = w.game.guestAnswers := by
  rcases hq : w.game.questions[w.game.currentQuestionIndex]? with _ | q
  · simp [checkGameProgress, hq]
  · by_cases hge : (w.game.currentQuestionIndex : Int) ≥ (w.game.questions.length : Int) - 1
    · simp [checkGameProgress, hq, hge]
    · by_cases hr : (w.game.currentQuestionIndex + 1) % 5 = 0 <;>
        simp [checkGameProgress, hq, hge, hr]

@[simp] lemma checkGameProgress_hostScore (w : World) :
    (checkGameProgress w).1.game.hostScore = w.game.hostScore := by
  rcases hq : w.game.questions[w.game.currentQuestionIndex]? with _ | q
  · simp [checkGameProgress, hq]
  · by_cases hge : (w.game.currentQuestionIndex : Int) ≥ (w.game.questions.length : Int) - 1
    · simp [checkGameProgress, hq, hge]
    · by_cases hr : (w.game.currentQuestionIndex + 1) % 5 = 0 <;>
        simp [checkGameProgress, hq, hge, hr]

@[simp] lemma checkGameProgress_guestScore (w : World) :
    (checkGameProgress w).1.game.guestScore = w.game.guestScore := by
  rcases hq : w.game.questions[w.game.currentQuestionIndex]? with _ | q
  · simp [checkGameProgress, hq]
  · by_cases hge : (w.game.currentQuestionIndex : Int) ≥ (w.game.questions.length : Int) - 1
    · simp [checkGameProgress, hq, hge]
    · by_cases hr : (w.game.currentQuestionIndex + 1) % 5 = 0 <;>
        simp [checkGameProgress, hq, hge, hr]

@[simp] lemma checkGameProgress_questions (w : World) :
    (checkGameProgress w).1.game.questions = w.game.questions := by
  rcases hq : w.game.questions[w.game.currentQuestionIndex]? with _ | q
  · simp [checkGameProgress, hq]
  · by_cases hge : (w.game.currentQuestionIndex : Int) ≥ (w.game.questions.length : Int) - 1
    · simp [checkGameProgress, hq, hge]
    · by_cases hr : (w.game.currentQuestionIndex + 1) % 5 = 0 <;>
        simp [checkGameProgress, hq, hge, hr]

@[simp] lemma checkGameProgress_hostId (w : World) :
    (checkGameProgress w).1.game.hostId = w.game.hostId := by
  rcases hq : w.game.questions[w.game.currentQuestionIndex]? with _ | q
  · simp [checkGameProgress, hq]
  · by_cases hge : (w.game.currentQuestionIndex : Int) ≥ (w.game.questions.length : Int) - 1
    · simp [checkGameProgress, hq, hge]
    · by_cases hr : (w.game.currentQuestionIndex + 1) % 5 = 0 <;>
        simp [checkGameProgress, hq, hge, hr]

@[simp] lemma checkGameProgress_guestId (w : World) :
    (checkGameProgress w).1.game.guestId = w.game.guestId := by
  rcases hq : w.game.questions[w.game.currentQuestionIndex]? with _ | q
  · simp [checkGameProgress, hq]
  · by_cases hge : (w.game.currentQuestionIndex : Int) ≥ (w.game.questions.length : Int) - 1
    · simp [checkGameProgress, hq, hge]
    · by_cases hr : (w.game.currentQuestionIndex + 1) % 5 = 0 <;>
        simp [checkGameProgress, hq, hge, hr]

/-- Outcome shape of `checkGameProgress`: exception no-op, finished, or advanced
by exactly one while strictly below the last index. -/
lemma checkGameProgress_cases (w : World) :
    ((checkGameProgress w).1 = w) ∨
    ((checkGameProgress w).1.game.status = GameStatus.completed ∧
     (checkGameProgress w).1.game.currentQuestionIndex = w.game.currentQuestionIndex) ∨
    ((checkGameProgress w).1.game.status = w.game.status ∧
     (checkGameProgress w).1.game.currentQuestionIndex = w.game.currentQuestionIndex + 1 ∧
     w.game.currentQuestionIndex + 1 < w.game.questions.length) := by
  rcases hq : w.game.questions[w.game.currentQuestionIndex]? with _ | q
  · exact Or.inl (by simp [checkGameProgress, hq])
  · have hlt : w.game.currentQuestionIndex < w.game.questions.length := by
      by_contra hc
      rw [List.getElem?_eq_none (Nat.le_of_not_lt hc)] at hq
      exact Option.noConfusion hq
    by_cases hge : (w.game.currentQuestionIndex : Int) ≥ (w.game.questions.length : Int) - 1
    · refine Or.inr (Or.inl ?_)
      constructor
      · simp [checkGameProgress, hq, hge]
      · simp [checkGameProgress, hq, hge]
    · have hbound : w.game.currentQuestionIndex + 1 < w.game.questions.length := by
        omega
      refine Or.inr (Or.inr ?_)
      by_cases hr : (w.game.currentQuestionIndex + 1) % 5 = 0 <;>
        simp [checkGameProgress, hq, hge, hr, hbound]

@[simp] lemma hasAnswerFor_nil (i : Nat) : hasAnswerFor [] i = false := by
  simp [hasAnswerFor]

@[simp] lemma hasAnswerFor_append (l1 l2 : List AnswerRecord) (i : Nat) :
    hasAnswerFor (l1 ++ l2) i = (hasAnswerFor l1 i || hasAnswerFor l2 i) := by
  simp [hasAnswerFor]

@[simp] lemma hasAnswerFor_singleton (e : AnswerRecord) (i : Nat) :
    hasAnswerFor [e] i = (e.questionIndex == i) := by
  simp [hasAnswerFor]

@[simp] lemma answerEntryFor_questionIndex (g : GameSession) (s : String) (now : Int)
    (q : Question) :
    (answerEntryFor g s now q).questionIndex = g.currentQuestionIndex := by
  rfl

/-! ### Claim theorems -/

/-- Claim C1: the claim says a created session with rounds r has exactly r × 5
questions, an undersized batch being a creation failure.  On the code the
generator contract fixes the batch at exactly 5 questions and `game:create`
keeps `questions.slice(0, rounds * 5)`, so a successful rounds = 2 creation
persists a session whose questions sequence has length 5, not 10: the code
silently plays a shorter game instead of failing. -/
theorem C1_two_rounds_create_persists_short_game :
    (createGame 1 2 "Animals" "easy" 2 true false batch5 0).map
        (fun w => (w.game.status, w.game.questions.length,
          w.game.rounds * w.game.questionsPerRound)) =
      Except.ok (GameStatus.waiting, 5, 10) ∧
    (validateAndNormalizeQuestions [demoRaw "Q1", demoRaw "Q2"]).isOk = false := by
  constructor
  · rfl
  · rfl

/-- Claim C3: when the last question is resolved, `checkGameProgress` finishes
the game: status becomes completed and `winnerId` is the strictly higher
id of the strictly higher scorer, or none on an exact tie — no secondary tie-break. -/
theorem C3_natural_finish_winner (w : World) (q : Question)
    (hq : w.game.questions[w.game.currentQuestionIndex]? = some q)
    (hlast : w.game.questions.length ≤ w.game.currentQuestionIndex + 1) :
    (checkGameProgress w).1.game.status = GameStatus.completed ∧
    (w.game.guestScore < w.game.hostScore →
      (checkGameProgress w).1.game.winnerId = some w.game.hostId) ∧
    (w.game.hostScore < w.game.guestScore →
      (checkGameProgress w).1.game.winnerId = some w.game.guestId) ∧
    (w.game.hostScore = w.game.guestScore →
      (checkGameProgress w).1.game.winnerId = none) := by
  have hge : (w.game.currentQuestionIndex : Int) ≥ (w.game.questions.length : Int) - 1 := by
    omega
  refine ⟨?_, ?_, ?_, ?_⟩
  · simp [checkGameProgress, hq, hge]
  · intro h
    simp [checkGameProgress, hq, hge, finishGame, h]
  · intro h
    simp [checkGameProgress, hq, hge, finishGame, h, Nat.lt_asymm h]
  · intro h
    simp [checkGameProgress, hq, hge, finishGame, h]

/-- Witness for C3: resolving the last question of `demoLast` completes the game
with the host (score 12 > 9) as winner. -/
theorem C3_witness :
    (checkGameProgress demoLast).1.game.status = GameStatus.completed ∧
    (checkGameProgress demoLast).1.game.winnerId = some 1 := by
  have h := C3_natural_finish_winner demoLast (toGeneratedQuestion (demoRaw "Q5")) rfl
    (by decide)
  exact ⟨h.1, h.2.1 (by decide)⟩

/-- Claim C4: an answer from a participant while in progress with
`questionStartTime` set is recorded with correctness = exact string equality
against `correct_answer`, and score 0 when wrong, else the base points
plus 1 exactly when the elapsed time `now - questionStartTime` is strictly
under 5000 ms. -/
theorem C4_answer_scoring (w : World) (u : Nat) (txt : String) (now t : Int)
    (q : Question)
    (hst : w.game.status = GameStatus.in_progress)
    (hq : w.game.questions[w.game.currentQuestionIndex]? = some q)
    (hqst : w.game.questionStartTime = some t)
    (hpart : u = w.game.hostId ∨ u = w.game.guestId)
    (hans : hasAnswerFor (playerAnswersOf w.game u) w.game.currentQuestionIndex = false) :
    playerAnswersOf (answerHandler w u txt now).1.game u =
      playerAnswersOf w.game u ++
        [{ questionIndex := w.game.currentQuestionIndex,
           answer := txt,
           isCorrect := txt == q.correct_answer,
           timeMs := now - t,
           score := if txt == q.correct_answer then
               q.score + (if now - t < SPEED_BONUS_THRESHOLD_MS then 1 else 0)
             else 0 }] := by
  by_cases hhost : (w.game.hostId == u) = true
  · have hans' : hasAnswerFor w.game.hostAnswers w.game.currentQuestionIndex = false := by
      simpa [playerAnswersOf, hhost] using hans
    by_cases hga : hasAnswerFor w.game.guestAnswers w.game.currentQuestionIndex = true
    · simp [answerHandler, answerEntryFor, hst, hq, hqst, hhost, hans', hga, playerAnswersOf]
    · simp [answerHandler, answerEntryFor, hst, hq, hqst, hhost, hans', hga, playerAnswersOf]
  · have hguest : (w.game.guestId == u) = true := by
      rcases hpart with h | h
      · exact absurd (by simp [h]) hhost
      · simp [h]
    have hans' : hasAnswerFor w.game.guestAnswers w.game.currentQuestionIndex = false := by
      simpa [playerAnswersOf, hhost] using hans
    by_cases hha : hasAnswerFor w.game.hostAnswers w.game.currentQuestionIndex = true
    · simp [answerHandler, answerEntryFor, hst, hq, hqst, hhost, hguest, hans', hha, playerAnswersOf]
    · simp [answerHandler, answerEntryFor, hst, hq, hqst, hhost, hguest, hans', hha, playerAnswersOf]

/-- Witness for C4: on `demoW2` the host answers "A" (correct, worth 3 points)
2000 ms after the question started, and the recorded entry scores 3 + 1 = 4. -/
theorem C4_witness :
    playerAnswersOf (answerHandler demoW2 1 "A" 3000).1.game 1 =
      [{ questionIndex := 0, answer := "A", isCorrect := true, timeMs := 2000, score := 4 }] := by
  have h := C4_answer_scoring demoW2 1 "A" 3000 1000 (toGeneratedQuestion (demoRaw "Q1"))
    rfl rfl rfl (Or.inl rfl) rfl
  exact h.trans (by decide)

/-- Claim C5: the claim says a decline outside `waiting` is rejected with no
state change.  The `game:decline` handler of the code never checks the status: the
designated guest declining an in-progress game cancels it, and declining an
already completed game drags it back to cancelled. -/
theorem C5_decline_ignores_status :
    demoW2.game.status = GameStatus.in_progress ∧
    (declineHandler demoW2 2).1.game.status = GameStatus.cancelled ∧
    (declineHandler demoW2 2).1 ≠ demoW2 ∧
    demoW5.game.status = GameStatus.completed ∧
    (declineHandler demoW5 2).1.game.status = GameStatus.cancelled := by
  refine ⟨rfl, rfl, by decide, rfl, rfl⟩

/-- Claim C9: a participant leaving an in-progress session completes it with
the other participant as winner, clears the pending timer, and broadcasts a
forfeit-flagged finish event naming the leaver. -/
theorem C9_leave_forfeit (w : World) (u : Nat)
    (hst : w.game.status = GameStatus.in_progress)
    (hpart : u = w.game.hostId ∨ u = w.game.guestId) :
    (leaveHandler w u).1.game.status = GameStatus.completed ∧
    (leaveHandler w u).1.game.winnerId =
      some (if w.game.hostId == u then w.game.guestId else w.game.hostId) ∧
    (leaveHandler w u).1.timer = none ∧
    (leaveHandler w u).2 =
      [GameEvent.finished
        (some (if w.game.hostId == u then w.game.guestId else w.game.hostId))
        w.game.hostScore w.game.guestScore true (some u)] := by
  by_cases hhost : (w.game.hostId == u) = true
  · simp [leaveHandler, hst, hhost]
  · have hguest : (w.game.guestId == u) = true := by
      rcases hpart with h | h
      · exact absurd (by simp [h]) hhost
      · simp [h]
    simp [leaveHandler, hst, hhost, hguest]

/-- Witness for C9: the guest (id 2) leaving `demoW4` mid-game completes the
session with `winnerId = hostId = 1` and a forfeit finish event. -/
theorem C9_witness :
    (leaveHandler demoW4 2).1.game.status = GameStatus.completed ∧
    (leaveHandler demoW4 2).1.game.winnerId = some 1 ∧
    (leaveHandler demoW4 2).1.timer = none ∧
    (leaveHandler demoW4 2).2 = [GameEvent.finished (some 1) 4 0 true (some 2)] := by
  have h := C9_leave_forfeit demoW4 2 rfl (Or.inr rfl)
  refine ⟨h.1, ?_, h.2.2.1, ?_⟩
  · exact h.2.1.trans (by decide)
  · exact h.2.2.2.trans (by decide)

/-- Claim C10: accepting is rejected exactly when the session is missing, the
caller is not the designated guest, or the status is not waiting; `expiresAt`
is never consulted, so a guest accept of a waiting session whose `expiresAt`
already passed still transitions it to in_progress. -/
theorem C10_accept_ignores_expiry (w : World) (u : Nat) (now : Int)
    (hguest : w.game.guestId = u)
    (hwait : w.game.status = GameStatus.waiting)
    (hexp : w.game.expiresAt < now) :
    (acceptHandler w u).1.game.status = GameStatus.in_progress ∧
    (acceptFromStore none u).1 = none ∧
    (∀ v : World, ¬(v.game.guestId = u ∧ v.game.status = GameStatus.waiting) →
      (acceptHandler v u).1 = v) ∧
    (∀ v : World, v.game.guestId = u → v.game.status = GameStatus.waiting →
      (acceptHandler v u).1.game.status = GameStatus.in_progress ∧
      (acceptHandler v u).1.game.expiresAt = v.game.expiresAt) := by
  refine ⟨?_, rfl, ?_, ?_⟩
  · simp [acceptHandler, hguest, hwait]
  · intro v hv
    by_cases hg : v.game.guestId = u
    · have hs : v.game.status ≠ GameStatus.waiting := fun h => hv ⟨hg, h⟩
      simp [acceptHandler, hg, hs]
    · simp [acceptHandler, hg]
  · intro v hg hs
    constructor
    · simp [acceptHandler, hg, hs]
    · simp [acceptHandler, hg, hs]

/-- Witness for C10: `demoW0` expires at 300000, yet at time 400000 the accept by
the guest still succeeds and the session goes in_progress. -/
theorem C10_witness :
    demoW0.game.expiresAt < 400000 ∧
    (acceptHandler demoW0 2).1.game.status = GameStatus.in_progress :=
  ⟨by decide, (C10_accept_ignores_expiry demoW0 2 400000 rfl rfl (by decide)).1⟩

/-! ### Engine invariants -/

lemma countAt_append (l1 l2 : List AnswerRecord) (i : Nat) :
    countAt (l1 ++ l2) i = countAt l1 i + countAt l2 i := by
  simp [countAt]

lemma countAt_eq_zero_of_not_has {l : List AnswerRecord} {i : Nat}
    (h : hasAnswerFor l i = false) : countAt l i = 0 := by
  simp only [hasAnswerFor, List.any_eq_false] at h
  simp only [countAt, List.length_eq_zero, List.filter_eq_nil_iff]
  exact h

lemma countAt_push_le {l : List AnswerRecord} {e : AnswerRecord}
    (hnew : hasAnswerFor l e.questionIndex = false)
    (hl : ∀ i, countAt l i ≤ 1) : ∀ i, countAt (l ++ [e]) i ≤ 1 := by
  intro i
  rw [countAt_append]
  by_cases hei : (e.questionIndex == i) = true
  · have hii : e.questionIndex = i := by simpa using hei
    have h0 : countAt l i = 0 := countAt_eq_zero_of_not_has (hii ▸ hnew)
    have h1 : countAt [e] i ≤ 1 := by simp [countAt, List.filter, hei]
    omega
  · have h1 : countAt [e] i = 0 := by
      simp only [countAt, List.filter, hei]
      rfl
    have := hl i
    omega

lemma sumScores_append (l : List AnswerRecord) (e : AnswerRecord) :
    sumScores (l ++ [e]) = sumScores l + e.score := by
  simp [sumScores]

lemma hasAnswerFor_eq_false_iff {l : List AnswerRecord} {i : Nat} :
    hasAnswerFor l i = false ↔ ∀ a ∈ l, a.questionIndex ≠ i := by
  simp [hasAnswerFor]

lemma hasAnswerFor_of_le {l : List AnswerRecord} {n : Nat}
    (h : ∀ a ∈ l, a.questionIndex ≤ n) : hasAnswerFor l (n + 1) = false := by
  rw [hasAnswerFor_eq_false_iff]
  intro a ha
  have := h a ha
  omega

lemma lt_length_of_getElem?_some {l : List Question} {i : Nat} {q : Question}
    (h : l[i]? = some q) : i < l.length := by
  by_contra hc
  rw [List.getElem?_eq_none (Nat.le_of_not_lt hc)] at h
  exact Option.noConfusion h

/-- Running `checkGameProgress` from an in-progress state whose data satisfies
the count/sum/cursor bounds yields an invariant state, without moving the
cursor except for a single in-bounds increment. -/
lemma inv_checkGameProgress (w : World)
    (hst : w.game.status = GameStatus.in_progress)
    (hch : ∀ i, countAt w.game.hostAnswers i ≤ 1)
    (hcg : ∀ i, countAt w.game.guestAnswers i ≤ 1)
    (hsh : w.game.hostScore = sumScores w.game.hostAnswers)
    (hsg : w.game.guestScore = sumScores w.game.guestAnswers)
    (hlen : 0 < w.game.questions.length)
    (hidx : w.game.currentQuestionIndex < w.game.questions.length)
    (hlh : ∀ a ∈ w.game.hostAnswers, a.questionIndex ≤ w.game.currentQuestionIndex)
    (hlg : ∀ a ∈ w.game.guestAnswers, a.questionIndex ≤ w.game.currentQuestionIndex) :
    EngineInv (checkGameProgress w).1 ∧
    ((checkGameProgress w).1.game.currentQuestionIndex = w.game.currentQuestionIndex ∨
     ((checkGameProgress w).1.game.currentQuestionIndex = w.game.currentQuestionIndex + 1 ∧
      w.game.currentQuestionIndex + 1 < w.game.questions.length)) := by
  have hq : w.game.questions[w.game.currentQuestionIndex]? =
      some (w.game.questions[w.game.currentQuestionIndex]) :=
    List.getElem?_eq_getElem hidx
  by_cases hge : (w.game.currentQuestionIndex : Int) ≥ (w.game.questions.length : Int) - 1
  · have hres : (checkGameProgress w).1 = (finishGame w).1 := by
      simp [checkGameProgress, hq, hge]
    rw [hres]
    refine ⟨⟨?_, ?_, ?_, ?_, ?_, ?_, ?_, ?_, ?_, ?_, ?_, ?_, ?_⟩, Or.inl ?_⟩
    · simpa using hch
    · simpa using hcg
    · simpa using Nat.le_of_lt hidx
    · simpa using hsh
    · simpa using hsg
    · simpa using hlen
    · intro h
      rw [finishGame_status] at h
      exact absurd h (by decide)
    · intro h
      rw [finishGame_status] at h
      exact absurd h (by decide)
    · intro h
      rw [finishGame_status] at h
      exact absurd h (by decide)
    · intro h
      rw [finishGame_status] at h
      exact absurd h (by decide)
    · intro h
      rw [finishGame_status] at h
      exact absurd h (by decide)
    · intro h
      rw [finishGame_status] at h
      exact absurd h (by decide)
    · intro h
      rw [finishGame_status] at h
      exact absurd h (by decide)
    · exact finishGame_idx w
  · have hbound : w.game.currentQuestionIndex + 1 < w.game.questions.length := by
      omega
    have hwait : w.game.status ≠ GameStatus.waiting := by
      rw [hst]
      decide
    by_cases hr : (w.game.currentQuestionIndex + 1) % 5 = 0
    all_goals
      have hres : (checkGameProgress w).1 =
          { w with game := { w.game with
              currentRound := (checkGameProgress w).1.game.currentRound,
              currentQuestionIndex := w.game.currentQuestionIndex + 1 } } := by
        simp [checkGameProgress, hq, hge, hr]
    all_goals
      rw [hres]
      refine ⟨⟨?_, ?_, ?_, ?_, ?_, ?_, ?_, ?_, ?_, ?_, ?_, ?_, ?_⟩,
        Or.inr ⟨rfl, hbound⟩⟩
    all_goals
      first
      | exact hch
      | exact hcg
      | exact Nat.le_of_lt hbound
      | exact hsh
      | exact hsg
      | exact hlen
      | exact fun h => absurd h hwait
      | exact fun _ => hbound
      | exact fun _ a ha => Nat.le_succ_of_le (hlh a ha)
      | exact fun _ a ha => Nat.le_succ_of_le (hlg a ha)
      | exact fun _ => Or.inl (hasAnswerFor_of_le hlh)

lemma le_of_mem_push {l : List AnswerRecord} {e : AnswerRecord} {n : Nat}
    (hl : ∀ a ∈ l, a.questionIndex ≤ n) (he : e.questionIndex ≤ n) :
    ∀ a ∈ l ++ [e], a.questionIndex ≤ n := by
  intro a ha
  rcases List.mem_append.mp ha with h | h
  · exact hl a h
  · rw [List.mem_singleton.mp h]
    exact he

lemma in_progress_ne_waiting : ¬(GameStatus.in_progress = GameStatus.waiting) := by decide

lemma waiting_ne_in_progress : ¬(GameStatus.waiting = GameStatus.in_progress) := by decide

lemma cancelled_ne_waiting : ¬(GameStatus.cancelled = GameStatus.waiting) := by decide

lemma cancelled_ne_in_progress : ¬(GameStatus.cancelled = GameStatus.in_progress) := by decide

lemma completed_ne_waiting : ¬(GameStatus.completed = GameStatus.waiting) := by decide

lemma completed_ne_in_progress : ¬(GameStatus.completed = GameStatus.in_progress) := by decide

lemma inv_accept (w : World) (hw : EngineInv w) (u : Nat) :
    EngineInv (acceptHandler w u).1 ∧
    ((acceptHandler w u).1.game.currentQuestionIndex = w.game.currentQuestionIndex ∨
     ((acceptHandler w u).1.game.currentQuestionIndex = w.game.currentQuestionIndex + 1 ∧
      w.game.currentQuestionIndex + 1 < w.game.questions.length)) := by
  by_cases hg : w.game.guestId ≠ u
  · have hres : (acceptHandler w u).1 = w := by simp [acceptHandler, hg]
    rw [hres]
    exact ⟨hw, Or.inl rfl⟩
  · by_cases hs : w.game.status ≠ GameStatus.waiting
    · have hres : (acceptHandler w u).1 = w := by simp [acceptHandler, hg, hs]
      rw [hres]
      exact ⟨hw, Or.inl rfl⟩
    · push_neg at hs
      have hHA : w.game.hostAnswers = [] := hw.waitingHost hs
      have hGA : w.game.guestAnswers = [] := hw.waitingGuest hs
      have hidx0 : w.game.currentQuestionIndex = 0 := hw.waitingIdx hs
      have hres : (acceptHandler w u).1 =
          { w with game := { w.game with
              status := GameStatus.in_progress,
              currentQuestionIndex := 0,
              currentRound := 1 } } := by
        simp [acceptHandler, hg, hs]
      rw [hres]
      refine ⟨⟨?_, ?_, ?_, ?_, ?_, ?_, ?_, ?_, ?_, ?_, ?_, ?_, ?_⟩, Or.inl hidx0.symm⟩
      · exact hw.countHost
      · exact hw.countGuest
      · exact Nat.zero_le _
      · exact hw.sumHost
      · exact hw.sumGuest
      · exact hw.lenPos
      · exact fun h => absurd h in_progress_ne_waiting
      · exact fun h => absurd h in_progress_ne_waiting
      · exact fun h => absurd h in_progress_ne_waiting
      · exact fun _ => hw.lenPos
      · exact fun _ a ha => absurd (hHA ▸ ha) (List.not_mem_nil a)
      · exact fun _ a ha => absurd (hGA ▸ ha) (List.not_mem_nil a)
      · exact fun _ => Or.inl (by rw [hHA]; exact hasAnswerFor_nil _)

lemma inv_decline (w : World) (hw : EngineInv w) (u : Nat) :
    EngineInv (declineHandler w u).1 ∧
    ((declineHandler w u).1.game.currentQuestionIndex = w.game.currentQuestionIndex ∨
     ((declineHandler w u).1.game.currentQuestionIndex = w.game.currentQuestionIndex + 1 ∧
      w.game.currentQuestionIndex + 1 < w.game.questions.length)) := by
  by_cases hg : w.game.guestId ≠ u
  · have hres : (declineHandler w u).1 = w := by simp [declineHandler, hg]
    rw [hres]
    exact ⟨hw, Or.inl rfl⟩
  · have hres : (declineHandler w u).1 =
        { w with game := { w.game with status := GameStatus.cancelled } } := by
      simp [declineHandler, hg]
    rw [hres]
    refine ⟨⟨?_, ?_, ?_, ?_, ?_, ?_, ?_, ?_, ?_, ?_, ?_, ?_, ?_⟩, Or.inl rfl⟩
    · exact hw.countHost
    · exact hw.countGuest
    · exact hw.idxLe
    · exact hw.sumHost
    · exact hw.sumGuest
    · exact hw.lenPos
    · exact fun h => absurd h cancelled_ne_waiting
    · exact fun h => absurd h cancelled_ne_waiting
    · exact fun h => absurd h cancelled_ne_waiting
    · exact fun h => absurd h cancelled_ne_in_progress
    · exact fun h => absurd h cancelled_ne_in_progress
    · exact fun h => absurd h cancelled_ne_in_progress
    · exact fun h => absurd h cancelled_ne_in_progress

lemma inv_leave (w : World) (hw : EngineInv w) (u : Nat) :
    EngineInv (leaveHandler w u).1 ∧
    ((leaveHandler w u).1.game.currentQuestionIndex = w.game.currentQuestionIndex ∨
     ((leaveHandler w u).1.game.currentQuestionIndex = w.game.currentQuestionIndex + 1 ∧
      w.game.currentQuestionIndex + 1 < w.game.questions.length)) := by
  by_cases hb : (!(w.game.hostId == u) && !(w.game.guestId == u)) = true
  · have hres : (leaveHandler w u).1 = w := by simp [leaveHandler, hb]
    rw [hres]
    exact ⟨hw, Or.inl rfl⟩
  · have hb' : (!(w.game.hostId == u) && !(w.game.guestId == u)) = false := by
      simpa using hb
    rcases hstat : w.game.status with _ | _ | _ | _
    · have hres : (leaveHandler w u).1 =
          { w with game := { w.game with status := GameStatus.cancelled } } := by
        simp [leaveHandler, hb', hstat]
      rw [hres]
      refine ⟨⟨?_, ?_, ?_, ?_, ?_, ?_, ?_, ?_, ?_, ?_, ?_, ?_, ?_⟩, Or.inl rfl⟩
      · exact hw.countHost
      · exact hw.countGuest
      · exact hw.idxLe
      · exact hw.sumHost
      · exact hw.sumGuest
      · exact hw.lenPos
      · exact fun h => absurd h cancelled_ne_waiting
      · exact fun h => absurd h cancelled_ne_waiting
      · exact fun h => absurd h cancelled_ne_waiting
      · exact fun h => absurd h cancelled_ne_in_progress
      · exact fun h => absurd h cancelled_ne_in_progress
      · exact fun h => absurd h cancelled_ne_in_progress
      · exact fun h => absurd h cancelled_ne_in_progress
    · have hres : (leaveHandler w u).1 =
          { game := { w.game with
              status := GameStatus.completed,
              winnerId := some (if (w.game.hostId == u) = true then w.game.guestId
                else w.game.hostId) },
            timer := none } := by
        by_cases hhost : (w.game.hostId == u) = true
        · simp [leaveHandler, hb', hstat, hhost]
        · have hhost' : (w.game.hostId == u) = false := by simpa using hhost
          have hguest : (w.game.guestId == u) = true := by simpa [hhost'] using hb'
          simp [leaveHandler, hb', hstat, hhost', hguest]
      rw [hres]
      refine ⟨⟨?_, ?_, ?_, ?_, ?_, ?_, ?_, ?_, ?_, ?_, ?_, ?_, ?_⟩, Or.inl rfl⟩
      · exact hw.countHost
      · exact hw.countGuest
      · exact hw.idxLe
      · exact hw.sumHost
      · exact hw.sumGuest
      · exact hw.lenPos
      · exact fun h => absurd h completed_ne_waiting
      · exact fun h => absurd h completed_ne_waiting
      · exact fun h => absurd h completed_ne_waiting
      · exact fun h => absurd h completed_ne_in_progress
      · exact fun h => absurd h completed_ne_in_progress
      · exact fun h => absurd h completed_ne_in_progress
      · exact fun h => absurd h completed_ne_in_progress
    · have hres : (leaveHandler w u).1 = w := by simp [leaveHandler, hb', hstat]
      rw [hres]
      exact ⟨hw, Or.inl rfl⟩
    · have hres : (leaveHandler w u).1 = w := by simp [leaveHandler, hb', hstat]
      rw [hres]
      exact ⟨hw, Or.inl rfl⟩

lemma inv_send (w : World) (hw : EngineInv w) (now : Int) :
    EngineInv (sendNextQuestion w now).1 ∧
    ((sendNextQuestion w now).1.game.currentQuestionIndex = w.game.currentQuestionIndex ∨
     ((sendNextQuestion w now).1.game.currentQuestionIndex = w.game.currentQuestionIndex + 1 ∧
      w.game.currentQuestionIndex + 1 < w.game.questions.length)) := by
  by_cases hs : w.game.status ≠ GameStatus.in_progress
  · have hres : (sendNextQuestion w now).1 = w := by simp [sendNextQuestion, hs]
    rw [hres]
    exact ⟨hw, Or.inl rfl⟩
  · push_neg at hs
    have hlt : w.game.currentQuestionIndex < w.game.questions.length := hw.idxLt hs
    have hq : w.game.questions[w.game.currentQuestionIndex]? =
        some (w.game.questions[w.game.currentQuestionIndex]) :=
      List.getElem?_eq_getElem hlt
    have hres : (sendNextQuestion w now).1 =
        { game := { w.game with questionStartTime := some now },
          timer := some w.game.currentQuestionIndex } := by
      simp [sendNextQuestion, hs, hq]
    rw [hres]
    refine ⟨⟨?_, ?_, ?_, ?_, ?_, ?_, ?_, ?_, ?_, ?_, ?_, ?_, ?_⟩, Or.inl rfl⟩
    · exact hw.countHost
    · exact hw.countGuest
    · exact hw.idxLe
    · exact hw.sumHost
    · exact hw.sumGuest
    · exact hw.lenPos
    · exact fun h => hw.waitingIdx h
    · exact fun h => hw.waitingHost h
    · exact fun h => hw.waitingGuest h
    · exact fun h => hw.idxLt h
    · exact fun h => hw.leHost h
    · exact fun h => hw.leGuest h
    · exact fun h => hw.notBoth h

lemma inv_timeout (w : World) (hw : EngineInv w) (qi : Nat) :
    EngineInv (handleQuestionTimeout w qi).1 ∧
    ((handleQuestionTimeout w qi).1.game.currentQuestionIndex = w.game.currentQuestionIndex ∨
     ((handleQuestionTimeout w qi).1.game.currentQuestionIndex = w.game.currentQuestionIndex + 1 ∧
      w.game.currentQuestionIndex + 1 < w.game.questions.length)) := by
  by_cases hs : w.game.status ≠ GameStatus.in_progress
  · have hres : (handleQuestionTimeout w qi).1 = w := by
      simp [handleQuestionTimeout, hs]
    rw [hres]
    exact ⟨hw, Or.inl rfl⟩
  · push_neg at hs
    by_cases hix : w.game.currentQuestionIndex ≠ qi
    · have hres : (handleQuestionTimeout w qi).1 = w := by
        simp [handleQuestionTimeout, hs, hix]
      rw [hres]
      exact ⟨hw, Or.inl rfl⟩
    · push_neg at hix
      have hlt : w.game.currentQuestionIndex < w.game.questions.length := hw.idxLt hs
      have hltq : qi < w.game.questions.length := hix ▸ hlt
      have hq : w.game.questions[qi]? = some (w.game.questions[qi]) :=
        List.getElem?_eq_getElem hltq
      by_cases hha : hasAnswerFor w.game.hostAnswers qi = true
      · by_cases hga : hasAnswerFor w.game.guestAnswers qi = true
        · rcases hw.notBoth hs with hf | hf
          · rw [hix] at hf
            exact absurd hha (by simp [hf])
          · rw [hix] at hf
            exact absurd hga (by simp [hf])
        · have hga' : hasAnswerFor w.game.guestAnswers qi = false := by simpa using hga
          have hres : (handleQuestionTimeout w qi).1 =
              (checkGameProgress { w with game := { w.game with
                  guestAnswers := w.game.guestAnswers ++
                    [⟨qi, "", false, QUESTION_TIME_MS, 0⟩] } }).1 := by
            simp [handleQuestionTimeout, hs, hix, hha, hga', hq]
          rw [hres]
          exact inv_checkGameProgress _ hs hw.countHost
            (countAt_push_le hga' hw.countGuest) hw.sumHost
            (by simpa [sumScores_append] using hw.sumGuest)
            hw.lenPos hlt (hw.leHost hs)
            (le_of_mem_push (hw.leGuest hs) (by simp [hix]))
      · have hha' : hasAnswerFor w.game.hostAnswers qi = false := by simpa using hha
        by_cases hga : hasAnswerFor w.game.guestAnswers qi = true
        · have hres : (handleQuestionTimeout w qi).1 =
              (checkGameProgress { w with game := { w.game with
                  hostAnswers := w.game.hostAnswers ++
                    [⟨qi, "", false, QUESTION_TIME_MS, 0⟩] } }).1 := by
            simp [handleQuestionTimeout, hs, hix, hha', hga, hq]
          rw [hres]
          exact inv_checkGameProgress _ hs
            (countAt_push_le hha' hw.countHost) hw.countGuest
            (by simpa [sumScores_append] using hw.sumHost) hw.sumGuest
            hw.lenPos hlt
            (le_of_mem_push (hw.leHost hs) (by simp [hix]))
            (hw.leGuest hs)
        · have hga' : hasAnswerFor w.game.guestAnswers qi = false := by simpa using hga
          have hres : (handleQuestionTimeout w qi).1 =
              (checkGameProgress { w with game := { w.game with
                  hostAnswers := w.game.hostAnswers ++
                    [⟨qi, "", false, QUESTION_TIME_MS, 0⟩],
                  guestAnswers := w.game.guestAnswers ++
                    [⟨qi, "", false, QUESTION_TIME_MS, 0⟩] } }).1 := by
            simp [handleQuestionTimeout, hs, hix, hha', hga', hq]
          rw [hres]
          exact inv_checkGameProgress _ hs
            (countAt_push_le hha' hw.countHost)
            (countAt_push_le hga' hw.countGuest)
            (by simpa [sumScores_append] using hw.sumHost)
            (by simpa [sumScores_append] using hw.sumGuest)
            hw.lenPos hlt
            (le_of_mem_push (hw.leHost hs) (by simp [hix]))
            (le_of_mem_push (hw.leGuest hs) (by simp [hix]))

lemma inv_answer (w : World) (hw : EngineInv w) (u : Nat) (txt : String) (now : Int) :
    EngineInv (answerHandler w u txt now).1 ∧
    ((answerHandler w u txt now).1.game.currentQuestionIndex = w.game.currentQuestionIndex ∨
     ((answerHandler w u txt now).1.game.currentQuestionIndex = w.game.currentQuestionIndex + 1 ∧
      w.game.currentQuestionIndex + 1 < w.game.questions.length)) := by
  by_cases hs : w.game.status ≠ GameStatus.in_progress
  · have hres : (answerHandler w u txt now).1 = w := by
      simp [answerHandler, hs]
    rw [hres]
    exact ⟨hw, Or.inl rfl⟩
  · push_neg at hs
    by_cases hb : (!(w.game.hostId == u) && !(w.game.guestId == u)) = true
    · have hres : (answerHandler w u txt now).1 = w := by
        simp [answerHandler, hs, hb]
      rw [hres]
      exact ⟨hw, Or.inl rfl⟩
    · have hb' : (!(w.game.hostId == u) && !(w.game.guestId == u)) = false := by
        simpa using hb
      have hlt : w.game.currentQuestionIndex < w.game.questions.length := hw.idxLt hs
      have hq : w.game.questions[w.game.currentQuestionIndex]? =
          some (w.game.questions[w.game.currentQuestionIndex]) :=
        List.getElem?_eq_getElem hlt
      by_cases hhost : (w.game.hostId == u) = true
      · by_cases hal : hasAnswerFor w.game.hostAnswers w.game.currentQuestionIndex = true
        · have hres : (answerHandler w u txt now).1 = w := by
            simp [answerHandler, hs, hb', hhost, hal]
          rw [hres]
          exact ⟨hw, Or.inl rfl⟩
        · have hal' : hasAnswerFor w.game.hostAnswers w.game.currentQuestionIndex = false := by
            simpa using hal
          by_cases hga : hasAnswerFor w.game.guestAnswers w.game.currentQuestionIndex = true
          · have hres : (answerHandler w u txt now).1 =
                (checkGameProgress
                  { game :=
                      { w.game with
                        hostAnswers := w.game.hostAnswers ++
                          [answerEntryFor w.game txt now
                            (w.game.questions[w.game.currentQuestionIndex])],
                        hostScore := w.game.hostScore +
                          (answerEntryFor w.game txt now
                            (w.game.questions[w.game.currentQuestionIndex])).score },
                    timer := none }).1 := by
              simp [answerHandler, hs, hb', hhost, hal', hga, hq]
            rw [hres]
            exact inv_checkGameProgress _ hs
              (countAt_push_le hal' hw.countHost) hw.countGuest
              (by simp [sumScores_append, hw.sumHost]) hw.sumGuest
              hw.lenPos hlt
              (le_of_mem_push (hw.leHost hs) (by simp))
              (hw.leGuest hs)
          · have hga' : hasAnswerFor w.game.guestAnswers w.game.currentQuestionIndex = false := by
              simpa using hga
            have hres : (answerHandler w u txt now).1 =
                { w with game := { w.game with
                    hostAnswers := w.game.hostAnswers ++
                      [answerEntryFor w.game txt now
                        (w.game.questions[w.game.currentQuestionIndex])],
                    hostScore := w.game.hostScore +
                      (answerEntryFor w.game txt now
                        (w.game.questions[w.game.currentQuestionIndex])).score } } := by
              simp [answerHandler, hs, hb', hhost, hal', hga', hq]
            rw [hres]
            refine ⟨⟨?_, ?_, ?_, ?_, ?_, ?_, ?_, ?_, ?_, ?_, ?_, ?_, ?_⟩, Or.inl rfl⟩
            · exact countAt_push_le hal' hw.countHost
            · exact hw.countGuest
            · exact hw.idxLe
            · simp [sumScores_append, hw.sumHost]
            · exact hw.sumGuest
            · exact hw.lenPos
            · exact fun h => absurd (hs.symm.trans h) in_progress_ne_waiting
            · exact fun h => absurd (hs.symm.trans h) in_progress_ne_waiting
            · exact fun h => absurd (hs.symm.trans h) in_progress_ne_waiting
            · exact fun _ => hlt
            · exact fun _ => le_of_mem_push (hw.leHost hs) (by simp)
            · exact fun _ => hw.leGuest hs
            · exact fun _ => Or.inr hga'
      · have hhost' : (w.game.hostId == u) = false := by simpa using hhost
        have hguest : (w.game.guestId == u) = true := by simpa [hhost'] using hb'
        by_cases hal : hasAnswerFor w.game.guestAnswers w.game.currentQuestionIndex = true
        · have hres : (answerHandler w u txt now).1 = w := by
            simp [answerHandler, hs, hb', hhost', hguest, hal]
          rw [hres]
          exact ⟨hw, Or.inl rfl⟩
        · have hal' : hasAnswerFor w.game.guestAnswers w.game.currentQuestionIndex = false := by
            simpa using hal
          by_cases hha : hasAnswerFor w.game.hostAnswers w.game.currentQuestionIndex = true
          · have hres : (answerHandler w u txt now).1 =
                (checkGameProgress
                  { game :=
                      { w.game with
                        guestAnswers := w.game.guestAnswers ++
                          [answerEntryFor w.game txt now
                            (w.game.questions[w.game.currentQuestionIndex])],
                        guestScore := w.game.guestScore +
                          (answerEntryFor w.game txt now
                            (w.game.questions[w.game.currentQuestionIndex])).score },
                    timer := none }).1 := by
              simp [answerHandler, hs, hb', hhost', hguest, hal', hha, hq]
            rw [hres]
            exact inv_checkGameProgress _ hs
              hw.countHost (countAt_push_le hal' hw.countGuest)
              hw.sumHost (by simp [sumScores_append, hw.sumGuest])
              hw.lenPos hlt
              (hw.leHost hs)
              (le_of_mem_push (hw.leGuest hs) (by simp))
          · have hha' : hasAnswerFor w.game.hostAnswers w.game.currentQuestionIndex = false := by
              simpa using hha
            have hres : (answerHandler w u txt now).1 =
                { w with game := { w.game with
                    guestAnswers := w.game.guestAnswers ++
                      [answerEntryFor w.game txt now
                        (w.game.questions[w.game.currentQuestionIndex])],
                    guestScore := w.game.guestScore +
                      (answerEntryFor w.game txt now
                        (w.game.questions[w.game.currentQuestionIndex])).score } } := by
              simp [answerHandler, hs, hb', hhost', hguest, hal', hha', hq]
            rw [hres]
            refine ⟨⟨?_, ?_, ?_, ?_, ?_, ?_, ?_, ?_, ?_, ?_, ?_, ?_, ?_⟩, Or.inl rfl⟩
            · exact hw.countHost
            · exact countAt_push_le hal' hw.countGuest
            · exact hw.idxLe
            · exact hw.sumHost
            · simp [sumScores_append, hw.sumGuest]
            · exact hw.lenPos
            · exact fun h => absurd (hs.symm.trans h) in_progress_ne_waiting
            · exact fun h => absurd (hs.symm.trans h) in_progress_ne_waiting
            · exact fun h => absurd (hs.symm.trans h) in_progress_ne_waiting
            · exact fun _ => hlt
            · exact fun _ => hw.leHost hs
            · exact fun _ => le_of_mem_push (hw.leGuest hs) (by simp)
            · exact fun _ => Or.inl hha'

lemma validate_ok_length {raw : List RawQuestion} {qs : List Question}
    (h : validateAndNormalizeQuestions raw = Except.ok qs) : qs.length = 5 := by
  unfold validateAndNormalizeQuestions at h
  split at h
  · exact absurd h (by simp)
  · rename_i hlen5
    split at h
    · injection h with h2
      subst h2
      simpa using hlen5
    · exact absurd h (by simp)

lemma inv_created (hostId guestId : Nat) (topic difficulty : String) (rounds : Int)
    (fa ao : Bool) (raw : List RawQuestion) (now : Int) (w : World)
    (h : createGame hostId guestId topic difficulty rounds fa ao raw now = Except.ok w) :
    EngineInv w := by
  unfold createGame at h
  split at h
  · exact absurd h (by simp)
  · rename_i hrounds
    split at h
    · exact absurd h (by simp)
    · split at h
      · exact absurd h (by simp)
      · rcases hv : validateAndNormalizeQuestions raw with e | qs
        · rw [hv] at h
          exact absurd h (by simp)
        · rw [hv] at h
          injection h with h2
          subst h2
          have hlen : qs.length = 5 := validate_ok_length hv
          have hr1 : 1 ≤ rounds.toNat := by
            simp only [decide_eq_true_eq, Bool.or_eq_true, not_or] at hrounds
            omega
          refine ⟨?_, ?_, ?_, ?_, ?_, ?_, ?_, ?_, ?_, ?_, ?_, ?_, ?_⟩
          · intro i
            simp [countAt]
          · intro i
            simp [countAt]
          · exact Nat.zero_le _
          · simp [sumScores]
          · simp [sumScores]
          · simp only [List.length_take, hlen]
            omega
          · exact fun _ => rfl
          · exact fun _ => rfl
          · exact fun _ => rfl
          · exact fun hcon => absurd hcon waiting_ne_in_progress
          · exact fun hcon => absurd hcon waiting_ne_in_progress
          · exact fun hcon => absurd hcon waiting_ne_in_progress
          · exact fun hcon => absurd hcon waiting_ne_in_progress

lemma inv_step (w : World) (hw : EngineInv w) (op : Op) :
    EngineInv (stepOp w op) ∧
    ((stepOp w op).game.currentQuestionIndex = w.game.currentQuestionIndex ∨
     ((stepOp w op).game.currentQuestionIndex = w.game.currentQuestionIndex + 1 ∧
      w.game.currentQuestionIndex + 1 < w.game.questions.length)) := by
  cases op with
  | accept u => exact inv_accept w hw u
  | decline u => exact inv_decline w hw u
  | answer u txt now => exact inv_answer w hw u txt now
  | leave u => exact inv_leave w hw u
  | timeoutFire i => exact inv_timeout w hw i
  | sendQuestion now => exact inv_send w hw now

lemma inv_reachable {w : World} (h : Reachable w) : EngineInv w := by
  induction h with
  | created hostId guestId topic difficulty rounds fa ao raw now v hv =>
      exact inv_created hostId guestId topic difficulty rounds fa ao raw now v hv
  | step v op _ ih => exact (inv_step v ih op).1

lemma demoW3_reachable : Reachable demoW3 :=
  Reachable.step demoW2 (Op.answer 1 "A" 3000)
    (Reachable.step demoW1 (Op.sendQuestion 1000)
      (Reachable.step demoW0 (Op.accept 2)
        (Reachable.created 1 2 "Animals" "easy" 1 true false batch5 0 demoW0
          demoW0_created)))

/-- Claim C2: a timeout firing for a question index both players have already
answered is a no-op — the in_progress / same-index re-check of the handler catches
it, because after the both-answered path ran, the session is either no longer
in progress or no longer on that index. -/
theorem C2_timeout_noop_after_both_answered (w : World) (h : Reachable w) (i : Nat)
    (hh : hasAnswerFor w.game.hostAnswers i = true)
    (hg : hasAnswerFor w.game.guestAnswers i = true) :
    handleQuestionTimeout w i = (w, []) := by
  have hw := inv_reachable h
  by_cases hs : w.game.status ≠ GameStatus.in_progress
  · simp [handleQuestionTimeout, hs]
  · push_neg at hs
    by_cases hix : w.game.currentQuestionIndex ≠ i
    · simp [handleQuestionTimeout, hs, hix]
    · push_neg at hix
      rcases hw.notBoth hs with hf | hf
      · rw [hix] at hf
        exact absurd hh (by simp [hf])
      · rw [hix] at hf
        exact absurd hg (by simp [hf])

/-- Witness for C2: in `demoW4` both players answered question 0 and the game
advanced to question 1; a stale timeout for index 0 changes nothing. -/
theorem C2_witness :
    hasAnswerFor demoW4.game.hostAnswers 0 = true ∧
    hasAnswerFor demoW4.game.guestAnswers 0 = true ∧
    handleQuestionTimeout demoW4 0 = (demoW4, []) :=
  ⟨by decide, by decide,
    C2_timeout_noop_after_both_answered demoW4 demoW4_reachable 0 (by decide) (by decide)⟩

/-- Claim C6: on every reachable session state each player has at most one
recorded answer per question index, and a repeated submission for the current
question by a player who already answered leaves the state unchanged. -/
theorem C6_at_most_one_answer_per_index (w : World) (h : Reachable w) :
    (∀ i, countAt w.game.hostAnswers i ≤ 1 ∧ countAt w.game.guestAnswers i ≤ 1) ∧
    (∀ u txt now, (u = w.game.hostId ∨ u = w.game.guestId) →
      hasAnswerFor (playerAnswersOf w.game u) w.game.currentQuestionIndex = true →
      (answerHandler w u txt now).1 = w) := by
  have hw := inv_reachable h
  refine ⟨fun i => ⟨hw.countHost i, hw.countGuest i⟩, ?_⟩
  intro u txt now hpart halready
  by_cases hs : w.game.status ≠ GameStatus.in_progress
  · simp [answerHandler, hs]
  · push_neg at hs
    by_cases hhost : (w.game.hostId == u) = true
    · have hal : hasAnswerFor w.game.hostAnswers w.game.currentQuestionIndex = true := by
        simpa [playerAnswersOf, hhost] using halready
      simp [answerHandler, hs, hhost, hal]
    · have hhost' : (w.game.hostId == u) = false := by simpa using hhost
      have hguest : (w.game.guestId == u) = true := by
        rcases hpart with hp | hp
        · exact absurd (by simp [hp]) hhost
        · simp [hp]
      have hal : hasAnswerFor w.game.guestAnswers w.game.currentQuestionIndex = true := by
        simpa [playerAnswersOf, hhost'] using halready
      simp [answerHandler, hs, hhost', hguest, hal]

/-- Witness for C6: in `demoW3` the host already answered question 0; the count
bounds hold and the host resubmitting is rejected without a state change. -/
theorem C6_witness :
    countAt demoW3.game.hostAnswers 0 ≤ 1 ∧
    countAt demoW3.game.guestAnswers 0 ≤ 1 ∧
    (answerHandler demoW3 1 "C" 4500).1 = demoW3 :=
  ⟨((C6_at_most_one_answer_per_index demoW3 demoW3_reachable).1 0).1,
   ((C6_at_most_one_answer_per_index demoW3 demoW3_reachable).1 0).2,
   (C6_at_most_one_answer_per_index demoW3 demoW3_reachable).2 1 "C" 4500
     (Or.inl rfl) (by decide)⟩

/-- Claim C7: on every reachable state the cursor is bounded by the question
count, and a single engine operation never decreases it — it either leaves it
unchanged or increments it by exactly one, the latter only when the resolved
index was not the last question. -/
theorem C7_cursor_monotone (w : World) (h : Reachable w) (op : Op) :
    w.game.currentQuestionIndex ≤ w.game.questions.length ∧
    w.game.currentQuestionIndex ≤ (stepOp w op).game.currentQuestionIndex ∧
    ((stepOp w op).game.currentQuestionIndex = w.game.currentQuestionIndex ∨
     ((stepOp w op).game.currentQuestionIndex = w.game.currentQuestionIndex + 1 ∧
      w.game.currentQuestionIndex + 1 < w.game.questions.length)) := by
  have hw := inv_reachable h
  have hstep := inv_step w hw op
  refine ⟨hw.idxLe, ?_, hstep.2⟩
  rcases hstep.2 with h1 | ⟨h1, _⟩ <;> omega

/-- Witness for C7: a stale timeout fired at `demoW4` keeps the cursor in
bounds and non-decreasing. -/
theorem C7_witness :
    demoW4.game.currentQuestionIndex ≤ demoW4.game.questions.length ∧
    demoW4.game.currentQuestionIndex ≤
      (stepOp demoW4 (Op.timeoutFire 0)).game.currentQuestionIndex ∧
    ((stepOp demoW4 (Op.timeoutFire 0)).game.currentQuestionIndex =
        demoW4.game.currentQuestionIndex ∨
     ((stepOp demoW4 (Op.timeoutFire 0)).game.currentQuestionIndex =
        demoW4.game.currentQuestionIndex + 1 ∧
      demoW4.game.currentQuestionIndex + 1 < demoW4.game.questions.length)) :=
  C7_cursor_monotone demoW4 demoW4_reachable (Op.timeoutFire 0)

/-- Claim C8: on every reachable state the running score of each player equals
the sum of the score fields of the recorded answers of that player. -/
theorem C8_scores_equal_sum (w : World) (h : Reachable w) :
    w.game.hostScore = sumScores w.game.hostAnswers ∧
    w.game.guestScore = sumScores w.game.guestAnswers :=
  ⟨(inv_reachable h).sumHost, (inv_reachable h).sumGuest⟩

/-- Witness for C8: in `demoW4` the host total 4 and the guest total 0 equal
the sums of their recorded per-answer scores. -/
theorem C8_witness :
    demoW4.game.hostScore = sumScores demoW4.game.hostAnswers ∧
    demoW4.game.guestScore = sumScores demoW4.game.guestAnswers :=
  C8_scores_equal_sum demoW4 demoW4_reachable
